import Mathlib

/-!
Shallow embedding of the ZMK battery monitor (src/main.py).

The embedding covers the parts of the program the verification targets:
device location (`find_keyboard`), battery-report resolution
(`read_battery_levels` with its scanning loop and cached fallback),
configuration load/save (`load_config` over raw JSON-like dictionaries),
CSV logging (`log_battery_levels`), tray critical notifications
(`update_tray`), and the monitoring loop's sleep/stop behaviour.

HID devices are modelled as a flag saying whether `device.open` succeeds
plus a partial function from report IDs to the byte buffer returned by
`get_feature_report` (`none` models a raised exception).  Feature-report
requests issued by a call are tracked as an explicit trace.
-/

namespace ZmkBatteryMonitor

/-- ASCII lower-casing of one character, mirroring Python `str.lower` on ASCII. -/
def asciiLowerChar (c : Char) : Char :=
  if 65 ≤ c.toNat ∧ c.toNat ≤ 90 then Char.ofNat (c.toNat + 32) else c

/-- Lower-cased character list of a string (Python `s.lower()`). -/
def lowerChars (s : String) : List Char := s.data.map asciiLowerChar

/-- Substring containment on character lists, mirroring Python `needle in hay`. -/
def containsSubstring (hay needle : List Char) : Bool :=
  hay.tails.any (fun t => needle.isPrefixOf t)

/-- One enumerated HID device, as consumed by `find_keyboard`. -/
structure DeviceDescriptor where
  vendor_id : Nat
  product_id : Nat
  path : String
  manufacturer : String
  product : String
deriving DecidableEq

/-- The mutable configuration dictionary, with the fields of `DEFAULT_CONFIG`
(main.py lines 18-28) in structured form. -/
structure Config where
  update_interval : Nat
  low_battery_threshold : Nat
  critical_battery_threshold : Nat
  vendor_id : Option Nat
  product_id : Option Nat
  device_name : Option String
  report_id : Option Nat
  left_battery_index : Option Nat
  right_battery_index : Option Nat
deriving DecidableEq

/-- The structured form of `DEFAULT_CONFIG` (main.py lines 18-28). -/
def defaultConfig : Config :=
  { update_interval := 300
    low_battery_threshold := 20
    critical_battery_threshold := 10
    vendor_id := none
    product_id := none
    device_name := none
    report_id := none
    left_battery_index := none
    right_battery_index := none }

/-- Python truthiness of an optional integer: `if self.config["vendor_id"]`
is false for both `None` and `0`. -/
def truthyNat : Option Nat → Bool
  | some n => n != 0
  | none => false

/-- The device-match filter of `find_keyboard` (main.py lines 440-442):
case-insensitive substring "keyboard" or "zmk" in the product string, or
"zmk" in the manufacturer string. -/
def matchesZmkDevice (d : DeviceDescriptor) : Bool :=
  containsSubstring (lowerChars d.product) "keyboard".data ||
  containsSubstring (lowerChars d.product) "zmk".data ||
  containsSubstring (lowerChars d.manufacturer) "zmk".data

/-- Modelled from the spec: the device-match predicate as the specification
words it ("product or manufacturer string contains the case-insensitive
substring \"keyboard\" or \"zmk\"").  Kept separate from `matchesZmkDevice`,
which is the filter the source actually applies, for refinement comparison. -/
def specDeviceMatch (d : DeviceDescriptor) : Bool :=
  containsSubstring (lowerChars d.product) "keyboard".data ||
  containsSubstring (lowerChars d.product) "zmk".data ||
  containsSubstring (lowerChars d.manufacturer) "keyboard".data ||
  containsSubstring (lowerChars d.manufacturer) "zmk".data

/-- Result of `find_keyboard`: the returned boolean, the configuration after
the call, and whether `save_config` was invoked. -/
structure FindOutcome where
  found : Bool
  cfg : Config
  saved : Bool
deriving DecidableEq

/-- The heuristic branch of `find_keyboard` (main.py lines 433-464): filter
candidates with `matchesZmkDevice`, take the first in enumeration order,
write its identity into the config and save. -/
def heuristicScan (devices : List DeviceDescriptor) (cfg : Config) : FindOutcome :=
  match devices.filter matchesZmkDevice with
  | [] => ⟨false, cfg, false⟩
  | d :: _ =>
    ⟨true,
     { cfg with
        vendor_id := some d.vendor_id
        product_id := some d.product_id
        device_name := some (d.manufacturer ++ " " ++ d.product) },
     true⟩

/-- Embedding of `find_keyboard` (main.py lines 418-464).  The fast path
requires both configured IDs to be truthy and an enumerated device matching
both exactly; otherwise the heuristic scan runs. -/
def find_keyboard (devices : List DeviceDescriptor) (cfg : Config) : FindOutcome :=
  if truthyNat cfg.vendor_id && truthyNat cfg.product_id then
    if devices.any (fun d => cfg.vendor_id == some d.vendor_id &&
        cfg.product_id == some d.product_id) then
      ⟨true, cfg, false⟩
    else heuristicScan devices cfg
  else heuristicScan devices cfg

/-- An open HID device: whether `device.open` succeeds, and the response of
`get_feature_report` per report ID (`none` models a raised exception). -/
structure Device where
  openOk : Bool
  getFeatureReport : Nat → Option (List Nat)

/-- The probe set of report IDs scanned by `read_battery_levels`
(main.py line 483). -/
def report_ids : List Nat := [1, 2, 3, 4, 5, 6, 7, 8]

/-- The `valid_reports` dictionary (main.py lines 486-495): for each probe ID
in order, keep the report if the request succeeded and its length exceeds 2. -/
def validReports (dev : Device) : List (Nat × List Nat) :=
  report_ids.filterMap (fun rid =>
    match dev.getFeatureReport rid with
    | some report => if 2 < report.length then some (rid, report) else none
    | none => none)

/-- The `potential_battery_values` list of one report (main.py lines 501-504):
positions `1 ≤ i < min 5 (length report)` whose byte lies in [0,100],
paired with the byte value, in position order. -/
def potentialBatteryValues (report : List Nat) : List (Nat × Nat) :=
  (List.range' 1 (min 5 report.length - 1)).filterMap (fun i =>
    if report.getD i 0 ≤ 100 then some (i, report.getD i 0) else none)

/-- Outcome of the resolution loop over `valid_reports`. -/
structure ScanOutcome where
  left : Option Nat
  right : Option Nat
  cfg : Config
  saved : Bool
deriving DecidableEq

/-- The resolution loop of `read_battery_levels` (main.py lines 499-539):
the first report with at least one potential battery value wins and the loop
breaks; with two or more potentials the first two become left/right, with
exactly one it becomes left; the config is rewritten and saved only when the
winning report ID differs from the cached one. -/
def scanReports (cfg : Config) : List (Nat × List Nat) → ScanOutcome
  | [] => ⟨none, none, cfg, false⟩
  | (rid, report) :: rest =>
    match potentialBatteryValues report with
    | (li, lv) :: (ri, rv) :: _ =>
      if cfg.report_id = some rid then
        ⟨some lv, some rv, cfg, false⟩
      else
        ⟨some lv, some rv,
         { cfg with
            report_id := some rid
            left_battery_index := some li
            right_battery_index := some ri },
         true⟩
    | [(i, v)] =>
      if cfg.report_id = some rid then
        ⟨some v, none, cfg, false⟩
      else
        ⟨some v, none,
         { cfg with
            report_id := some rid
            left_battery_index := some i
            right_battery_index := none },
         true⟩
    | [] => scanReports cfg rest

/-- Outcome of the cached-configuration fallback, with the feature-report
requests it issued. -/
structure FallbackOutcome where
  left : Option Nat
  right : Option Nat
  requests : List Nat
deriving DecidableEq

/-- The stored-configuration fallback of `read_battery_levels`
(main.py lines 543-562): request the cached report ID and accept the bytes at
the cached indices when in bounds and within [0,100].  A `None` cached report
ID makes the inner `get_feature_report` raise before any request is issued,
and a failed request leaves both values absent. -/
def cachedFallback (dev : Device) (cfg : Config) : FallbackOutcome :=
  match cfg.report_id with
  | none => ⟨none, none, []⟩
  | some rid =>
    match dev.getFeatureReport rid with
    | none => ⟨none, none, [rid]⟩
    | some report =>
      let left :=
        match cfg.left_battery_index with
        | some li =>
          if li < report.length ∧ report.getD li 0 ≤ 100 then some (report.getD li 0)
          else none
        | none => none
      let right :=
        match cfg.right_battery_index with
        | some ri =>
          if ri < report.length ∧ report.getD ri 0 ≤ 100 then some (report.getD ri 0)
          else none
        | none => none
      ⟨left, right, [rid]⟩

/-- Result of one `read_battery_levels` call: the two battery values, the
configuration after the call, whether `save_config` ran, and the trace of
feature-report IDs requested, in order. -/
structure ReadOutcome where
  left : Option Nat
  right : Option Nat
  cfg : Config
  saved : Bool
  requests : List Nat
deriving DecidableEq

/-- Embedding of `read_battery_levels` (main.py lines 466-585) up to the
point where `self.battery_levels` is assigned.  When the device opens, all
eight probe report IDs are requested to build `valid_reports`, the scan loop
runs, and only if the scan produced neither value does the cached fallback
issue its request.  A failed `device.open` is caught by the outer handler and
yields absent values with no request and no config change. -/
def read_battery_levels (dev : Device) (cfg : Config) : ReadOutcome :=
  if dev.openOk then
    let s := scanReports cfg (validReports dev)
    if s.left = none ∧ s.right = none then
      let fb := cachedFallback dev s.cfg
      ⟨fb.left, fb.right, s.cfg, s.saved, report_ids ++ fb.requests⟩
    else
      ⟨s.left, s.right, s.cfg, s.saved, report_ids⟩
  else ⟨none, none, cfg, false, []⟩

/-- The `self.battery_levels` record (main.py lines 576-580). -/
structure BatteryLevels where
  left : Option Nat
  right : Option Nat
  timestamp : String
deriving DecidableEq

/-- CSV header line written on first creation of the log file
(main.py line 591). -/
def csvHeader : String := "timestamp,left_battery,right_battery"

/-- Serialization of an optional battery value into a CSV field
(main.py lines 593-594): absent values become the empty string. -/
def optionField : Option Nat → String
  | some v => toString v
  | none => ""

/-- One data row of the battery log (main.py line 597). -/
def renderRow (b : BatteryLevels) : String :=
  b.timestamp ++ "," ++ optionField b.left ++ "," ++ optionField b.right

/-- Embedding of `log_battery_levels` (main.py lines 587-597) over the state
of the log file: whether it exists and its list of lines.  The header is
written only when the file does not yet exist; exactly one data row is
appended. -/
def log_battery_levels (fileExists : Bool) (rows : List String) (b : BatteryLevels) :
    Bool × List String :=
  let rows1 := if fileExists then rows else rows ++ [csvHeader]
  (true, rows1 ++ [renderRow b])

/-- A critical-battery notification dispatched by `update_tray`, carrying the
reported percentage. -/
inductive CriticalNotice where
  | leftLow (pct : Nat)
  | rightLow (pct : Nat)
deriving DecidableEq

/-- The right-half arm of the notification conditional in `update_tray`
(main.py lines 673-678). -/
def rightCriticalNotice (cfg : Config) (b : BatteryLevels) : List CriticalNotice :=
  match b.right with
  | some r =>
    if r ≤ cfg.critical_battery_threshold then [CriticalNotice.rightLow r] else []
  | none => []

/-- The critical notifications dispatched by one `update_tray` call
(main.py lines 667-678): an `if`/`elif` chain, so the right-half check runs
only when the left value is absent or above the critical threshold. -/
def criticalNotifications (cfg : Config) (b : BatteryLevels) : List CriticalNotice :=
  match b.left with
  | some l =>
    if l ≤ cfg.critical_battery_threshold then [CriticalNotice.leftLow l]
    else rightCriticalNotice cfg b
  | none => rightCriticalNotice cfg b

/-- The observable state mutated by one iteration of `monitoring_loop`. -/
structure MonState where
  cfg : Config
  battery : BatteryLevels
  fileExists : Bool
  rows : List String
  icon : Bool
  trayUpdates : Nat
  sentNotices : List CriticalNotice
deriving DecidableEq

/-- The environment one monitoring cycle runs against: the enumerated
devices, the HID device behaviour, and the cycle's timestamp. -/
structure CycleEnv where
  devices : List DeviceDescriptor
  dev : Device
  ts : String

/-- Embedding of the body of one `monitoring_loop` iteration before the sleep
phase (main.py lines 683-691): locate the keyboard; on success run
`read_battery_levels` (which replaces `self.battery_levels` and appends a CSV
row) and, when the GUI is active, `update_tray`; on location failure nothing
else happens.  The surrounding `try`/`except` means no branch escapes. -/
def monitoring_cycle (env : CycleEnv) (s : MonState) : MonState :=
  let fk := find_keyboard env.devices s.cfg
  if fk.found then
    let out := read_battery_levels env.dev fk.cfg
    let b : BatteryLevels := ⟨out.left, out.right, env.ts⟩
    let lg := log_battery_levels s.fileExists s.rows b
    let s1 : MonState :=
      { s with cfg := out.cfg, battery := b, fileExists := lg.1, rows := lg.2 }
    if s1.icon then
      { s1 with
          trayUpdates := s1.trayUpdates + 1
          sentNotices := s1.sentNotices ++ criticalNotifications out.cfg b }
    else s1
  else { s with cfg := fk.cfg }

/-- The sleep phase of `monitoring_loop` (main.py lines 694-697), counting
the 1-second sleeps performed.  `running i` is the value of `self.running`
observed at the i-th flag check; the flag is checked before every increment
and a false check breaks out with no further sleep. -/
def sleepSteps : Nat → (Nat → Bool) → Nat → Nat
  | 0, _, _ => 0
  | n + 1, running, i => if running i then sleepSteps n running (i + 1) + 1 else 0

/-- Number of 1-second sleeps one sleep phase performs for a given interval
and flag trace. -/
def sleepPhase (interval : Nat) (running : Nat → Bool) : Nat :=
  sleepSteps interval running 0

/-- The bounded join timeout used by `stop_monitoring` (main.py line 714). -/
def stopJoinTimeoutSeconds : Nat := 2

/-- A JSON-like value stored in the raw configuration dictionary. -/
inductive JValue where
  | jnull
  | jnum (n : Nat)
  | jstr (s : String)
deriving DecidableEq

/-- A raw configuration dictionary: keys with JSON-like values, in insertion
order, as produced by `json.load`. -/
abbrev RawConfig : Type := List (String × JValue)

/-- Key membership in a raw configuration dictionary (Python `key in config`). -/
def containsKey (m : RawConfig) (k : String) : Bool :=
  m.any (fun kv => kv.1 == k)

/-- The raw `DEFAULT_CONFIG` dictionary (main.py lines 18-28). -/
def rawDefaultConfig : RawConfig :=
  [("update_interval", JValue.jnum 300),
   ("low_battery_threshold", JValue.jnum 20),
   ("critical_battery_threshold", JValue.jnum 10),
   ("vendor_id", JValue.jnull),
   ("product_id", JValue.jnull),
   ("device_name", JValue.jnull),
   ("report_id", JValue.jnull),
   ("left_battery_index", JValue.jnull),
   ("right_battery_index", JValue.jnull)]

/-- The merge step of `load_config` (main.py lines 401-403): each default key
missing from the loaded dictionary is added with its default value. -/
def mergeDefaults (m : RawConfig) : RawConfig :=
  rawDefaultConfig.foldl
    (fun acc kv => if containsKey acc kv.1 then acc else acc ++ [kv]) m

/-- Embedding of `load_config` (main.py lines 394-408): `none` models a
missing file or a `json.load` failure, which silently falls back to the
defaults; a successfully parsed dictionary is merged over the defaults. -/
def load_config : Option RawConfig → RawConfig
  | none => rawDefaultConfig
  | some m => mergeDefaults m

/-- Embedding of `save_config` (main.py lines 410-416): the persisted file
content is the full current dictionary (`json.dump(self.config, ...)`). -/
def save_config (m : RawConfig) : RawConfig := m

/-- A device exposing exactly one feature report. -/
def singleReportDevice (rid : Nat) (report : List Nat) : Device :=
  ⟨true, fun k => if k = rid then some report else none⟩

/-- A five-byte synthetic report with value `l` at offset `i1`, value `r` at
offset `i2`, and the out-of-range byte 200 at the remaining payload offsets. -/
def mkTwoValueReport (i1 i2 l r : Nat) : List Nat :=
  ([0, 200, 200, 200, 200].set i1 l).set i2 r

section ScanLemmas

theorem scanReports_skip (cfg : Config) (rid : Nat) (report : List Nat)
    (rest : List (Nat × List Nat)) (h : potentialBatteryValues report = []) :
    scanReports cfg ((rid, report) :: rest) = scanReports cfg rest := by
  simp [scanReports, h]

theorem scanReports_skip_all (cfg : Config) (l rest : List (Nat × List Nat))
    (h : ∀ p ∈ l, potentialBatteryValues p.2 = []) :
    scanReports cfg (l ++ rest) = scanReports cfg rest := by
  induction l with
  | nil => rfl
  | cons p tl ih =>
    obtain ⟨rid, report⟩ := p
    rw [List.cons_append, scanReports_skip cfg rid report _ (h _ (List.mem_cons_self _ _))]
    exact ih (fun q hq => h q (List.mem_cons_of_mem _ hq))

theorem scanReports_win_two (cfg : Config) (rid li lv ri rv : Nat)
    (rest0 : List (Nat × Nat)) (report : List Nat) (tl : List (Nat × List Nat))
    (h : potentialBatteryValues report = (li, lv) :: (ri, rv) :: rest0) :
    scanReports cfg ((rid, report) :: tl) =
      if cfg.report_id = some rid then ⟨some lv, some rv, cfg, false⟩
      else
        ⟨some lv, some rv,
         { cfg with
            report_id := some rid
            left_battery_index := some li
            right_battery_index := some ri }, true⟩ := by
  simp [scanReports, h]

theorem scanReports_win_one (cfg : Config) (rid i v : Nat)
    (report : List Nat) (tl : List (Nat × List Nat))
    (h : potentialBatteryValues report = [(i, v)]) :
    scanReports cfg ((rid, report) :: tl) =
      if cfg.report_id = some rid then ⟨some v, none, cfg, false⟩
      else
        ⟨some v, none,
         { cfg with
            report_id := some rid
            left_battery_index := some i
            right_battery_index := none }, true⟩ := by
  simp [scanReports, h]

end ScanLemmas

/-- A device whose report 0x01 carries battery values 50 and 60 at payload
offsets 1 and 2, all other report requests failing. -/
def c1Dev : Device := ⟨true, fun rid => if rid = 1 then some [1, 50, 60, 0, 0] else none⟩

/-- A configuration with a learned mapping: report ID 0x01, indices 1 and 2. -/
def c1Cfg : Config :=
  { defaultConfig with
      vendor_id := some 4660
      product_id := some 22136
      report_id := some 1
      left_battery_index := some 1
      right_battery_index := some 2 }

/-- C1 counterexample: `c1Cfg` has `report_id` set and the cached report
yields in-bounds values 50 and 60 within [0,100] at the cached indices, yet
`read_battery_levels` requests all eight probe report IDs — the scan always
runs first, so feature reports other than the cached one are requested. -/
theorem c1_counterexample :
    c1Cfg.report_id = some 1 ∧
    c1Cfg.left_battery_index = some 1 ∧ c1Cfg.right_battery_index = some 2 ∧
    c1Dev.getFeatureReport 1 = some [1, 50, 60, 0, 0] ∧
    (read_battery_levels c1Dev c1Cfg).left = some 50 ∧
    (read_battery_levels c1Dev c1Cfg).right = some 60 ∧
    (read_battery_levels c1Dev c1Cfg).requests = [1, 2, 3, 4, 5, 6, 7, 8] ∧
    (read_battery_levels c1Dev c1Cfg).requests ≠ [1] := by
  decide

/-- C1 (amended): the scan over the probe IDs always runs first; only when it
yields no potential battery value does `read_battery_levels` fall back to the
cached mapping, returning the cached-index values when they are in bounds and
within [0,100], with the cached report requested after the eight probes. -/
theorem c1_cached_fallback (dev : Device) (cfg : Config) (rid li ri : Nat)
    (report : List Nat)
    (hopen : dev.openOk = true)
    (hscan : ∀ p ∈ validReports dev, potentialBatteryValues p.2 = [])
    (hrid : cfg.report_id = some rid)
    (hrep : dev.getFeatureReport rid = some report)
    (hli : cfg.left_battery_index = some li)
    (hliB : li < report.length) (hliV : report.getD li 0 ≤ 100)
    (hri : cfg.right_battery_index = some ri)
    (hriB : ri < report.length) (hriV : report.getD ri 0 ≤ 100) :
    (read_battery_levels dev cfg).left = some (report.getD li 0) ∧
    (read_battery_levels dev cfg).right = some (report.getD ri 0) ∧
    (read_battery_levels dev cfg).requests = report_ids ++ [rid] := by
  have hs : scanReports cfg (validReports dev) = ⟨none, none, cfg, false⟩ := by
    have h2 := scanReports_skip_all cfg (validReports dev) [] hscan
    simpa using h2
  simp [read_battery_levels, hopen, hs, cachedFallback, hrid, hrep, hli, hri,
    hliB, hliV, hriB, hriV]
  exact ⟨by rw [← List.getD_eq_getElem report 0 hliB]; exact hliV,
         by rw [← List.getD_eq_getElem report 0 hriB]; exact hriV⟩

/-- A device whose only valid report is ID 0x03, with no potential battery
value at the scanned offsets but values 42 and 77 at offsets 5 and 6. -/
def c1wDev : Device :=
  ⟨true, fun rid => if rid = 3 then some [3, 200, 200, 200, 200, 42, 77] else none⟩

/-- A configuration caching report ID 0x03 with indices 5 and 6, beyond the
scanned positions. -/
def c1wCfg : Config :=
  { defaultConfig with
      report_id := some 3
      left_battery_index := some 5
      right_battery_index := some 6 }

/-- Witness for `c1_cached_fallback` at a concrete device and configuration. -/
theorem c1_cached_fallback_witness :
    (read_battery_levels c1wDev c1wCfg).left = some 42 ∧
    (read_battery_levels c1wDev c1wCfg).right = some 77 ∧
    (read_battery_levels c1wDev c1wCfg).requests = report_ids ++ [3] := by
  have h := c1_cached_fallback c1wDev c1wCfg 3 5 6 [3, 200, 200, 200, 200, 42, 77]
    (by decide) (by decide) (by decide) (by decide) (by decide) (by decide)
    (by decide) (by decide) (by decide) (by decide)
  exact h

/-- A device whose report 0x01 has in-range values only at offsets 1 and 2. -/
def c2Dev : Device := ⟨true, fun rid => if rid = 1 then some [1, 50, 60, 200, 200] else none⟩

/-- A configuration whose cached report ID equals the winning one but whose
cached indices are stale (3 and 4). -/
def c2Cfg : Config :=
  { defaultConfig with
      report_id := some 1
      left_battery_index := some 3
      right_battery_index := some 4 }

/-- C2 counterexample: report 0x01 has its two potential values at offsets
1 and 2 and the resolver returns them, but because the cached report ID
already equals 0x01 the offsets are not recorded — the config keeps the stale
indices 3 and 4 and no save happens. -/
theorem c2_counterexample :
    potentialBatteryValues [1, 50, 60, 200, 200] = [(1, 50), (2, 60)] ∧
    (read_battery_levels c2Dev c2Cfg).left = some 50 ∧
    (read_battery_levels c2Dev c2Cfg).right = some 60 ∧
    (read_battery_levels c2Dev c2Cfg).cfg.left_battery_index = some 3 ∧
    (read_battery_levels c2Dev c2Cfg).cfg.right_battery_index = some 4 ∧
    (read_battery_levels c2Dev c2Cfg).saved = false := by
  decide

/-- Helper: a device with exactly report 0x01, whose report has at least two
potential values, resolves to the first two and records them when the cached
report ID is unset. -/
theorem read_singleReport_two (report : List Nat) (cfg : Config)
    (li lv ri rv : Nat) (rest0 : List (Nat × Nat))
    (hlen : 2 < report.length)
    (hp : potentialBatteryValues report = (li, lv) :: (ri, rv) :: rest0)
    (hcfg : cfg.report_id = none) :
    read_battery_levels (singleReportDevice 1 report) cfg =
      ⟨some lv, some rv,
       { cfg with
          report_id := some 1
          left_battery_index := some li
          right_battery_index := some ri }, true, report_ids⟩ := by
  have hvr : validReports (singleReportDevice 1 report) = [(1, report)] := by
    simp [validReports, report_ids, singleReportDevice, hlen]
  have hw := scanReports_win_two cfg 1 li lv ri rv rest0 report [] hp
  have hopen : (singleReportDevice 1 report).openOk = true := rfl
  simp [read_battery_levels, hopen, hvr, hw, hcfg]

/-- C2 (amended): for every scanned report of length > 2 with at least two
potential values at positions 1-4, the resolver sets left/right to the first
two values; the two offsets are recorded and persisted when the cached report
ID differs from the winning one (otherwise the config is left unchanged); in
particular, for all pairs (l, r) in [0,100]x[0,100] embedded at two scanned
offsets of a synthetic report, with no cached report ID, the resolver
recovers exactly (l, r) and records the correct offsets. -/
theorem c2_first_two_potentials :
    (∀ (cfg : Config) (rid li lv ri rv : Nat) (rest0 : List (Nat × Nat))
        (report : List Nat) (tl : List (Nat × List Nat)),
      potentialBatteryValues report = (li, lv) :: (ri, rv) :: rest0 →
      (scanReports cfg ((rid, report) :: tl)).left = some lv ∧
      (scanReports cfg ((rid, report) :: tl)).right = some rv ∧
      (cfg.report_id ≠ some rid →
        (scanReports cfg ((rid, report) :: tl)).cfg.report_id = some rid ∧
        (scanReports cfg ((rid, report) :: tl)).cfg.left_battery_index = some li ∧
        (scanReports cfg ((rid, report) :: tl)).cfg.right_battery_index = some ri ∧
        (scanReports cfg ((rid, report) :: tl)).saved = true)) ∧
    (∀ (i1 i2 l r : Nat) (cfg : Config), 1 ≤ i1 → i1 < i2 → i2 ≤ 4 →
      l ≤ 100 → r ≤ 100 → cfg.report_id = none →
      read_battery_levels (singleReportDevice 1 (mkTwoValueReport i1 i2 l r)) cfg =
        ⟨some l, some r,
         { cfg with
            report_id := some 1
            left_battery_index := some i1
            right_battery_index := some i2 }, true, report_ids⟩) := by
  constructor
  · intro cfg rid li lv ri rv rest0 report tl hp
    have hw := scanReports_win_two cfg rid li lv ri rv rest0 report tl hp
    by_cases hc : cfg.report_id = some rid <;> simp [hw, hc]
  · intro i1 i2 l r cfg h1 h2 h3 hl hr hcfg
    have h4 : List.range' 1 4 = [1, 2, 3, 4] := rfl
    have h13 : i1 ≤ 3 := by omega
    interval_cases i1 <;> interval_cases i2
    · exact read_singleReport_two _ cfg 1 l 2 r [] (by simp [mkTwoValueReport])
        (by simp [mkTwoValueReport, potentialBatteryValues, h4, hl, hr]) hcfg
    · exact read_singleReport_two _ cfg 1 l 3 r [] (by simp [mkTwoValueReport])
        (by simp [mkTwoValueReport, potentialBatteryValues, h4, hl, hr]) hcfg
    · exact read_singleReport_two _ cfg 1 l 4 r [] (by simp [mkTwoValueReport])
        (by simp [mkTwoValueReport, potentialBatteryValues, h4, hl, hr]) hcfg
    · exact read_singleReport_two _ cfg 2 l 3 r [] (by simp [mkTwoValueReport])
        (by simp [mkTwoValueReport, potentialBatteryValues, h4, hl, hr]) hcfg
    · exact read_singleReport_two _ cfg 2 l 4 r [] (by simp [mkTwoValueReport])
        (by simp [mkTwoValueReport, potentialBatteryValues, h4, hl, hr]) hcfg
    · exact read_singleReport_two _ cfg 3 l 4 r [] (by simp [mkTwoValueReport])
        (by simp [mkTwoValueReport, potentialBatteryValues, h4, hl, hr]) hcfg

/-- Witness for `c2_first_two_potentials` at concrete inputs. -/
theorem c2_first_two_potentials_witness :
    (scanReports defaultConfig [(1, [1, 42, 7, 200, 200])]).left = some 42 ∧
    (scanReports defaultConfig [(1, [1, 42, 7, 200, 200])]).right = some 7 ∧
    read_battery_levels (singleReportDevice 1 (mkTwoValueReport 1 2 33 44)) defaultConfig =
      ⟨some 33, some 44,
       { defaultConfig with
          report_id := some 1
          left_battery_index := some 1
          right_battery_index := some 2 }, true, report_ids⟩ :=
  ⟨(c2_first_two_potentials.1 defaultConfig 1 1 42 2 7 [] [1, 42, 7, 200, 200] []
      (by decide)).1,
   (c2_first_two_potentials.1 defaultConfig 1 1 42 2 7 [] [1, 42, 7, 200, 200] []
      (by decide)).2.1,
   c2_first_two_potentials.2 1 2 33 44 defaultConfig (by decide) (by decide)
      (by decide) (by decide) (by decide) (by decide)⟩

/-- C3: during a scan, the first valid report in probe order with at least
one potential battery value wins and the resolution loop stops there — the
outcome equals that of the winning report alone, independent of later
reports; when the winning report has exactly one potential value, the
resolver returns left = that value and right = absent. -/
theorem c3_first_winner_single (dev : Device) (cfg : Config)
    (pre post : List (Nat × List Nat)) (rid i v : Nat) (report : List Nat)
    (hopen : dev.openOk = true)
    (hvr : validReports dev = pre ++ (rid, report) :: post)
    (hpre : ∀ p ∈ pre, potentialBatteryValues p.2 = [])
    (hone : potentialBatteryValues report = [(i, v)]) :
    scanReports cfg (validReports dev) = scanReports cfg [(rid, report)] ∧
    (read_battery_levels dev cfg).left = some v ∧
    (read_battery_levels dev cfg).right = none := by
  have h1 : scanReports cfg (validReports dev) = scanReports cfg ((rid, report) :: post) := by
    rw [hvr]
    exact scanReports_skip_all cfg pre _ hpre
  have h2 := scanReports_win_one cfg rid i v report post hone
  have h3 := scanReports_win_one cfg rid i v report [] hone
  have hstop : scanReports cfg (validReports dev) = scanReports cfg [(rid, report)] := by
    rw [h1, h2, h3]
  refine ⟨hstop, ?_⟩
  by_cases hc : cfg.report_id = some rid <;>
    simp [read_battery_levels, hopen, h1, h2, hc]

/-- A device whose report 0x01 is valid but has no potential battery value,
while report 0x02 has exactly one (42 at offset 1). -/
def c3wDev : Device :=
  ⟨true, fun rid =>
    if rid = 1 then some [1, 200, 200]
    else if rid = 2 then some [2, 42, 200, 200, 200] else none⟩

/-- Witness for `c3_first_winner_single` at a concrete device. -/
theorem c3_first_winner_single_witness :
    (read_battery_levels c3wDev defaultConfig).left = some 42 ∧
    (read_battery_levels c3wDev defaultConfig).right = none := by
  have h := c3_first_winner_single c3wDev defaultConfig
    [(1, [1, 200, 200])] [] 2 1 42 [2, 42, 200, 200, 200]
    (by decide) (by decide) (by decide) (by decide)
  exact ⟨h.2.1, h.2.2⟩

theorem scanReports_saved_false_cfg (cfg : Config) (l : List (Nat × List Nat)) :
    (scanReports cfg l).saved = false → (scanReports cfg l).cfg = cfg := by
  induction l with
  | nil => intro _; rfl
  | cons p tl ih =>
    obtain ⟨rid, report⟩ := p
    intro h
    cases hp : potentialBatteryValues report with
    | nil =>
      rw [scanReports_skip cfg rid report tl hp] at h ⊢
      exact ih h
    | cons a tl2 =>
      obtain ⟨i, v⟩ := a
      cases tl2 with
      | nil =>
        rw [scanReports_win_one cfg rid i v report tl hp] at h ⊢
        by_cases hc : cfg.report_id = some rid
        · simp [hc]
        · simp [hc] at h
      | cons b tl3 =>
        obtain ⟨ri, rv⟩ := b
        rw [scanReports_win_two cfg rid i v ri rv tl3 report tl hp] at h ⊢
        by_cases hc : cfg.report_id = some rid
        · simp [hc]
        · simp [hc] at h

theorem scanReports_saved_true_winner (cfg : Config) (l : List (Nat × List Nat)) :
    (scanReports cfg l).saved = true →
    ∃ pre rid report post, l = pre ++ (rid, report) :: post ∧
      (∀ p ∈ pre, potentialBatteryValues p.2 = []) ∧
      potentialBatteryValues report ≠ [] ∧ cfg.report_id ≠ some rid := by
  induction l with
  | nil => intro h; simp [scanReports] at h
  | cons p tl ih =>
    obtain ⟨rid, report⟩ := p
    intro h
    cases hp : potentialBatteryValues report with
    | nil =>
      rw [scanReports_skip cfg rid report tl hp] at h
      obtain ⟨pre, r2, rep2, post, heq, hpre, hne, hcfg⟩ := ih h
      refine ⟨(rid, report) :: pre, r2, rep2, post, ?_, ?_, hne, hcfg⟩
      · rw [List.cons_append, heq]
      · intro q hq
        rcases List.mem_cons.mp hq with h2 | h2
        · rw [h2]
          exact hp
        · exact hpre q h2
    | cons a tl2 =>
      obtain ⟨i, v⟩ := a
      by_cases hc : cfg.report_id = some rid
      · exfalso
        cases tl2 with
        | nil =>
          rw [scanReports_win_one cfg rid i v report tl hp] at h
          simp [hc] at h
        | cons b tl3 =>
          obtain ⟨ri, rv⟩ := b
          rw [scanReports_win_two cfg rid i v ri rv tl3 report tl hp] at h
          simp [hc] at h
      · exact ⟨[], rid, report, tl, rfl, by simp, by simp [hp], hc⟩

theorem scanReports_win_same_id (cfg : Config) (rid : Nat) (report : List Nat)
    (tl : List (Nat × List Nat)) (hne : potentialBatteryValues report ≠ [])
    (hc : cfg.report_id = some rid) :
    (scanReports cfg ((rid, report) :: tl)).saved = false ∧
    (scanReports cfg ((rid, report) :: tl)).cfg = cfg := by
  cases hp : potentialBatteryValues report with
  | nil => exact absurd hp hne
  | cons a tl2 =>
    obtain ⟨i, v⟩ := a
    cases tl2 with
    | nil =>
      rw [scanReports_win_one cfg rid i v report tl hp]
      simp [hc]
    | cons b tl3 =>
      obtain ⟨ri, rv⟩ := b
      rw [scanReports_win_two cfg rid i v ri rv tl3 report tl hp]
      simp [hc]

/-- C5: the mapping fields are written and persisted by `read_battery_levels`
only when the scan's winning report — the first valid report with a potential
battery value, every report before it in probe order having none — carries a
report ID different from the cached one; when the winner's ID equals the
cached one no save happens and the configuration is returned unchanged;
without a save the configuration is returned unchanged; and when no scanned
report yields any potential battery value the cached mapping is left
completely untouched. -/
theorem c5_mapping_persistence (dev : Device) (cfg : Config) :
    ((read_battery_levels dev cfg).saved = false →
      (read_battery_levels dev cfg).cfg = cfg) ∧
    ((read_battery_levels dev cfg).saved = true →
      ∃ pre rid report post,
        validReports dev = pre ++ (rid, report) :: post ∧
        (∀ p ∈ pre, potentialBatteryValues p.2 = []) ∧
        potentialBatteryValues report ≠ [] ∧
        cfg.report_id ≠ some rid) ∧
    (∀ pre rid report post,
      validReports dev = pre ++ (rid, report) :: post →
      (∀ p ∈ pre, potentialBatteryValues p.2 = []) →
      potentialBatteryValues report ≠ [] →
      cfg.report_id = some rid →
      (read_battery_levels dev cfg).saved = false ∧
      (read_battery_levels dev cfg).cfg = cfg) ∧
    ((∀ p ∈ validReports dev, potentialBatteryValues p.2 = []) →
      (read_battery_levels dev cfg).cfg = cfg ∧
      (read_battery_levels dev cfg).saved = false) := by
  cases hopen : dev.openOk with
  | false => simp [read_battery_levels, hopen]
  | true =>
    have hkey : (read_battery_levels dev cfg).cfg = (scanReports cfg (validReports dev)).cfg ∧
        (read_battery_levels dev cfg).saved = (scanReports cfg (validReports dev)).saved := by
      simp only [read_battery_levels, hopen, if_true]
      split <;> exact ⟨rfl, rfl⟩
    rw [hkey.1, hkey.2]
    refine ⟨scanReports_saved_false_cfg cfg _, scanReports_saved_true_winner cfg _, ?_, ?_⟩
    · intro pre rid report post hvr hpre hne hc
      rw [hvr, scanReports_skip_all cfg pre _ hpre]
      exact scanReports_win_same_id cfg rid report post hne hc
    · intro hall
      have h2 := scanReports_skip_all cfg (validReports dev) [] hall
      simp only [List.append_nil] at h2
      rw [h2]
      exact ⟨rfl, rfl⟩

/-- A device on which every feature-report request fails. -/
def c5wDev : Device := ⟨true, fun _ => none⟩

/-- A device whose report 0x01 wins the scan with potential values at
offsets 1 and 2. -/
def c5mDev : Device := ⟨true, fun rid => if rid = 1 then some [1, 50, 60, 200, 200] else none⟩

/-- A configuration whose cached report ID already equals the winning 0x01. -/
def c5mCfg : Config :=
  { defaultConfig with
      report_id := some 1
      left_battery_index := some 3
      right_battery_index := some 4 }

/-- Witness for `c5_mapping_persistence`: with no valid report at all the
configuration is untouched and nothing is saved, and with the winner's ID
equal to the cached one no redundant save happens. -/
theorem c5_mapping_persistence_witness :
    ((read_battery_levels c5wDev defaultConfig).cfg = defaultConfig ∧
     (read_battery_levels c5wDev defaultConfig).saved = false) ∧
    ((read_battery_levels c5mDev c5mCfg).saved = false ∧
     (read_battery_levels c5mDev c5mCfg).cfg = c5mCfg) :=
  ⟨(c5_mapping_persistence c5wDev defaultConfig).2.2.2 (by decide),
   (c5_mapping_persistence c5mDev c5mCfg).2.2.1 [] 1 [1, 50, 60, 200, 200] []
     (by decide) (by decide) (by decide) (by decide)⟩

theorem find_keyboard_not_found (devices : List DeviceDescriptor) (cfg : Config) :
    (find_keyboard devices cfg).found = false →
    (find_keyboard devices cfg).cfg = cfg ∧ (find_keyboard devices cfg).saved = false := by
  unfold find_keyboard heuristicScan
  split
  · split
    · simp
    · split <;> simp
  · split <;> simp

/-- A configured device present in the enumeration, so location succeeds. -/
def c4Desc : DeviceDescriptor := ⟨1, 2, "hid1", "Acme", "Split KB"⟩

/-- A configuration already pointing at `c4Desc`. -/
def c4Cfg : Config :=
  { defaultConfig with
      vendor_id := some 1
      product_id := some 2 }

/-- An environment where the keyboard is located but `device.open` fails. -/
def c4Env : CycleEnv := ⟨[c4Desc], ⟨false, fun _ => none⟩, "2024-01-01 00:00:00"⟩

/-- Cycle state before the failing cycle: a retained reading, an existing log
file, and an active tray icon. -/
def c4State : MonState :=
  { cfg := c4Cfg
    battery := ⟨some 80, some 90, "2023-12-31 23:55:00"⟩
    fileExists := true
    rows := ["timestamp,left_battery,right_battery"]
    icon := true
    trayUpdates := 0
    sentNotices := [] }

/-- C4 counterexample: with the device located but the HID open failing, the
cycle still replaces the retained reading with an absent-valued one, appends
a row with empty battery fields to the series, and invokes the tray observer
— contradicting the claim that a failing cycle emits no reading. -/
theorem c4_counterexample :
    c4Env.dev.openOk = false ∧
    (find_keyboard c4Env.devices c4State.cfg).found = true ∧
    (monitoring_cycle c4Env c4State).battery ≠ c4State.battery ∧
    (monitoring_cycle c4Env c4State).battery = ⟨none, none, "2024-01-01 00:00:00"⟩ ∧
    (monitoring_cycle c4Env c4State).rows =
      c4State.rows ++ ["2024-01-01 00:00:00,,"] ∧
    (monitoring_cycle c4Env c4State).trayUpdates = c4State.trayUpdates + 1 := by
  decide

/-- C4 (amended): when no device is located the cycle leaves the state
untouched; when the device is located but the HID open fails, the cycle does
not raise but still replaces the retained reading with an absent-valued one
and appends a row with empty fields (plus the header when the file is new),
before proceeding to the sleep phase. -/
theorem c4_failure_behavior (env : CycleEnv) (s : MonState) :
    ((find_keyboard env.devices s.cfg).found = false → monitoring_cycle env s = s) ∧
    ((find_keyboard env.devices s.cfg).found = true → env.dev.openOk = false →
      (monitoring_cycle env s).battery = ⟨none, none, env.ts⟩ ∧
      (monitoring_cycle env s).rows =
        (if s.fileExists then s.rows else s.rows ++ [csvHeader]) ++
          [renderRow ⟨none, none, env.ts⟩] ∧
      (monitoring_cycle env s).cfg = (find_keyboard env.devices s.cfg).cfg) := by
  constructor
  · intro h
    have h2 := find_keyboard_not_found env.devices s.cfg h
    simp [monitoring_cycle, h, h2.1]
  · intro hf hopen
    simp only [monitoring_cycle, hf, if_true, read_battery_levels, hopen,
      Bool.false_eq_true, if_false, log_battery_levels, renderRow]
    split <;> exact ⟨rfl, rfl, rfl⟩

/-- An environment with no enumerated device at all. -/
def c4wEnv : CycleEnv := ⟨[], ⟨true, fun _ => none⟩, "2024-01-01 00:05:00"⟩

/-- Witness for `c4_failure_behavior` at concrete inputs: a no-device cycle
leaves the state untouched, and an open-failure cycle produces the absent
reading. -/
theorem c4_failure_behavior_witness :
    monitoring_cycle c4wEnv c4State = c4State ∧
    (monitoring_cycle c4Env c4State).battery = ⟨none, none, "2024-01-01 00:00:00"⟩ :=
  ⟨(c4_failure_behavior c4wEnv c4State).1 (by decide),
   ((c4_failure_behavior c4Env c4State).2 (by decide) (by decide)).1⟩

/-- A device whose manufacturer string contains "keyboard" but whose product
string matches nothing, and which contains "zmk" nowhere. -/
def c6Desc : DeviceDescriptor := ⟨4660, 22136, "hid0", "Sample Keyboard Co", "Dongle"⟩

/-- C6 counterexample: `c6Desc` matches the spec's predicate (case-insensitive
"keyboard" in the manufacturer string) but not the source's filter, which
checks "keyboard" only against the product string; with no IDs configured,
`find_keyboard` returns NotFound and leaves the config untouched instead of
selecting the device. -/
theorem c6_counterexample :
    specDeviceMatch c6Desc = true ∧
    matchesZmkDevice c6Desc = false ∧
    find_keyboard [c6Desc] defaultConfig = ⟨false, defaultConfig, false⟩ := by
  decide

theorem heuristicScan_by_find (devices : List DeviceDescriptor) (cfg : Config) :
    (∀ d, devices.find? matchesZmkDevice = some d →
      heuristicScan devices cfg =
        ⟨true,
         { cfg with
            vendor_id := some d.vendor_id
            product_id := some d.product_id
            device_name := some (d.manufacturer ++ " " ++ d.product) }, true⟩) ∧
    (devices.find? matchesZmkDevice = none →
      heuristicScan devices cfg = ⟨false, cfg, false⟩) := by
  induction devices with
  | nil => exact ⟨fun d hd => by simp at hd, fun _ => rfl⟩
  | cons a tl ih =>
    constructor
    · intro d hd
      by_cases ha : matchesZmkDevice a
      · rw [List.find?_cons_of_pos _ ha] at hd
        cases hd
        simp [heuristicScan, List.filter_cons, ha]
      · rw [List.find?_cons_of_neg _ ha] at hd
        have h2 := ih.1 d hd
        simp only [heuristicScan, List.filter_cons, ha, if_false] at h2 ⊢
        exact h2
    · intro hd
      by_cases ha : matchesZmkDevice a
      · rw [List.find?_cons_of_pos _ ha] at hd
        cases hd
      · rw [List.find?_cons_of_neg _ ha] at hd
        have h2 := ih.2 hd
        simp only [heuristicScan, List.filter_cons, ha, if_false] at h2 ⊢
        exact h2

/-- C6 (amended): when the fast path does not apply (no truthy configured IDs
or the configured device is absent), `find_keyboard` selects the first device
in enumeration order whose product string contains the case-insensitive
substring "keyboard" or "zmk" or whose manufacturer string contains "zmk",
writes its IDs and composed display name into the config and persists it;
with no such device it returns NotFound without mutating the config. -/
theorem c6_heuristic_selection (devices : List DeviceDescriptor) (cfg : Config)
    (hfast : (truthyNat cfg.vendor_id && truthyNat cfg.product_id) = false ∨
      devices.any (fun d => cfg.vendor_id == some d.vendor_id &&
        cfg.product_id == some d.product_id) = false) :
    (∀ d, devices.find? matchesZmkDevice = some d →
      find_keyboard devices cfg =
        ⟨true,
         { cfg with
            vendor_id := some d.vendor_id
            product_id := some d.product_id
            device_name := some (d.manufacturer ++ " " ++ d.product) }, true⟩) ∧
    (devices.find? matchesZmkDevice = none →
      find_keyboard devices cfg = ⟨false, cfg, false⟩) := by
  have hred : find_keyboard devices cfg = heuristicScan devices cfg := by
    cases hfast with
    | inl h => simp [find_keyboard, h]
    | inr h =>
      unfold find_keyboard
      split
      · rw [h]
        simp
      · rfl
  rw [hred]
  exact heuristicScan_by_find devices cfg

/-- A heuristically matchable device. -/
def c6wDesc : DeviceDescriptor := ⟨100, 7, "hid2", "Acme", "ZMK Corne"⟩

/-- Witness for `c6_heuristic_selection` at concrete inputs. -/
theorem c6_heuristic_selection_witness :
    find_keyboard [c6Desc, c6wDesc] defaultConfig =
      ⟨true,
       { defaultConfig with
          vendor_id := some 100
          product_id := some 7
          device_name := some "Acme ZMK Corne" }, true⟩ := by
  have h := (c6_heuristic_selection [c6Desc, c6wDesc] defaultConfig
    (Or.inl (by decide))).1 c6wDesc (by decide)
  simpa using h

theorem containsKey_append_left (acc l : RawConfig) (k : String)
    (hk : containsKey acc k = true) : containsKey (acc ++ l) k = true := by
  simp only [containsKey, List.any_append, Bool.or_eq_true]
  exact Or.inl hk

theorem foldl_merge_mem (ds : List (String × JValue)) (acc : RawConfig)
    (x : String × JValue) (hx : x ∈ acc) :
    x ∈ ds.foldl (fun acc kv => if containsKey acc kv.1 then acc else acc ++ [kv]) acc := by
  induction ds generalizing acc with
  | nil => exact hx
  | cons kv tl ih =>
    simp only [List.foldl_cons]
    by_cases h : containsKey acc kv.1 = true
    · rw [if_pos h]
      exact ih acc hx
    · rw [if_neg h]
      exact ih _ (List.mem_append_left _ hx)

theorem foldl_merge_containsKey_mono (ds : List (String × JValue)) (acc : RawConfig)
    (k : String) (hk : containsKey acc k = true) :
    containsKey
      (ds.foldl (fun acc kv => if containsKey acc kv.1 then acc else acc ++ [kv]) acc)
      k = true := by
  induction ds generalizing acc with
  | nil => exact hk
  | cons kv tl ih =>
    simp only [List.foldl_cons]
    by_cases h : containsKey acc kv.1 = true
    · rw [if_pos h]
      exact ih acc hk
    · rw [if_neg h]
      exact ih _ (containsKey_append_left acc [kv] k hk)

theorem foldl_merge_contains_all (ds : List (String × JValue)) (acc : RawConfig) :
    ∀ kv ∈ ds,
      containsKey
        (ds.foldl (fun acc kv => if containsKey acc kv.1 then acc else acc ++ [kv]) acc)
        kv.1 = true := by
  induction ds generalizing acc with
  | nil => intro kv hkv; simp at hkv
  | cons a tl ih =>
    intro kv hkv
    simp only [List.foldl_cons]
    rcases List.mem_cons.mp hkv with h | h
    · subst h
      have hstep : containsKey (if containsKey acc kv.1 then acc else acc ++ [kv]) kv.1 = true := by
        by_cases h2 : containsKey acc kv.1 = true
        · rw [if_pos h2]; exact h2
        · rw [if_neg h2]
          simp [containsKey]
      exact foldl_merge_containsKey_mono tl _ kv.1 hstep
    · exact ih _ kv h

theorem foldl_merge_noop (ds : List (String × JValue)) (acc : RawConfig)
    (h : ∀ kv ∈ ds, containsKey acc kv.1 = true) :
    ds.foldl (fun acc kv => if containsKey acc kv.1 then acc else acc ++ [kv]) acc = acc := by
  induction ds with
  | nil => rfl
  | cons a tl ih =>
    simp only [List.foldl_cons, if_pos (h a (List.mem_cons_self _ _))]
    exact ih (fun kv hkv => h kv (List.mem_cons_of_mem _ hkv))

/-- C7: loading merges persisted values over the complete default set so
every default key is defined after load; entries of the loaded file —
unknown keys included — survive a save unmodified; load-save-load is
idempotent; and a failed load falls back to the defaults. -/
theorem c7_config_roundtrip (m : RawConfig) :
    (∀ kv ∈ rawDefaultConfig, containsKey (load_config (some m)) kv.1 = true) ∧
    (∀ x ∈ m, x ∈ save_config (load_config (some m))) ∧
    load_config (some (save_config (load_config (some m)))) = load_config (some m) ∧
    load_config none = rawDefaultConfig := by
  have hunfold : ∀ mm : RawConfig, mergeDefaults mm =
      rawDefaultConfig.foldl
        (fun acc kv => if containsKey acc kv.1 then acc else acc ++ [kv]) mm :=
    fun _ => rfl
  refine ⟨?_, ?_, ?_, rfl⟩
  · intro kv hkv
    simp only [load_config, hunfold]
    exact foldl_merge_contains_all rawDefaultConfig m kv hkv
  · intro x hx
    simp only [save_config, load_config, hunfold]
    exact foldl_merge_mem rawDefaultConfig m x hx
  · simp only [save_config, load_config, hunfold]
    exact foldl_merge_noop rawDefaultConfig _
      (fun kv hkv => foldl_merge_contains_all rawDefaultConfig m kv hkv)

/-- A loaded raw config with an unknown key and one overridden default. -/
def c7wRaw : RawConfig := [("custom_key", JValue.jstr "x"), ("update_interval", JValue.jnum 60)]

/-- Witness for `c7_config_roundtrip` at a concrete raw config. -/
theorem c7_config_roundtrip_witness :
    (("custom_key", JValue.jstr "x") ∈ save_config (load_config (some c7wRaw))) ∧
    load_config (some (save_config (load_config (some c7wRaw)))) = load_config (some c7wRaw) :=
  ⟨(c7_config_roundtrip c7wRaw).2.1 _ (by decide),
   (c7_config_roundtrip c7wRaw).2.2.1⟩

/-- C8: each emitted reading appends exactly one data row, the header is
written only when the file does not yet exist, absent values serialize as
empty fields, and the end-to-end example — report [0x01, 75, 60, 0, 0] for
report ID 0x01 — yields the reading (75, 60) and the row `<ts>,75,60`. -/
theorem c8_logging (b : BatteryLevels) (fileExists : Bool) (rows : List String) :
    (log_battery_levels fileExists rows b).2 =
      (if fileExists then rows else rows ++ [csvHeader]) ++ [renderRow b] ∧
    optionField none = "" ∧
    renderRow ⟨b.left, b.right, b.timestamp⟩ =
      b.timestamp ++ "," ++ optionField b.left ++ "," ++ optionField b.right ∧
    (read_battery_levels (singleReportDevice 1 [1, 75, 60, 0, 0]) defaultConfig).left = some 75 ∧
    (read_battery_levels (singleReportDevice 1 [1, 75, 60, 0, 0]) defaultConfig).right = some 60 ∧
    renderRow ⟨some 75, some 60, "2024-01-01 10:00:00"⟩ = "2024-01-01 10:00:00,75,60" :=
  ⟨rfl, rfl, rfl, by decide, by decide, by decide⟩

theorem sleepSteps_le_of_flag_false (n : Nat) (running : Nat → Bool) :
    ∀ i k, running k = false → i ≤ k → sleepSteps n running i ≤ k - i := by
  induction n with
  | zero => intro i k _ _; simp [sleepSteps]
  | succ n ih =>
    intro i k hk hik
    cases h : running i with
    | false => simp [sleepSteps, h]
    | true =>
      have hne : i ≠ k := by
        intro he
        rw [he, hk] at h
        exact Bool.noConfusion h
      have h2 := ih (i + 1) k hk (by omega)
      simp only [sleepSteps, h, if_true]
      omega

theorem sleepSteps_le_interval (n : Nat) (running : Nat → Bool) :
    ∀ i, sleepSteps n running i ≤ n := by
  induction n with
  | zero => intro i; simp [sleepSteps]
  | succ n ih =>
    intro i
    cases h : running i with
    | false => simp [sleepSteps, h]
    | true =>
      simp only [sleepSteps, h, if_true]
      exact Nat.succ_le_succ (ih (i + 1))

/-- C9: the sleep phase is decomposed into 1-second increments with the
running flag checked before each one, so when the flag reads false from
check k onward at most k sleeps happen — in particular a stop during sleep
k-1 allows no sleep beyond it; the phase never exceeds the interval, and
`stop_monitoring` joins the worker with the bounded 2-second timeout. -/
theorem c9_stop_responsiveness :
    (∀ (n k : Nat) (running : Nat → Bool), running k = false →
      sleepPhase n running ≤ k) ∧
    (∀ (n : Nat) (running : Nat → Bool), sleepPhase n running ≤ n) ∧
    stopJoinTimeoutSeconds = 2 := by
  refine ⟨?_, ?_, rfl⟩
  · intro n k running hk
    have h := sleepSteps_le_of_flag_false n running 0 k hk (Nat.zero_le k)
    simpa [sleepPhase] using h
  · intro n running
    exact sleepSteps_le_interval n running 0

/-- Witness for `c9_stop_responsiveness`: a flag cleared at check 3 bounds a
300-second sleep phase by 3 sleeps. -/
theorem c9_stop_responsiveness_witness :
    sleepPhase 300 (fun i => decide (i < 3)) ≤ 3 :=
  c9_stop_responsiveness.1 300 3 (fun i => decide (i < 3)) (by decide)

/-- C10: at most one critical notification is dispatched per tray update; the
right-half one appears only when the left value is absent or above the
critical threshold; and when both halves are at or below the threshold, only
the left-half notification is shown. -/
theorem c10_at_most_one_critical (cfg : Config) (b : BatteryLevels) :
    (criticalNotifications cfg b).length ≤ 1 ∧
    (∀ r, CriticalNotice.rightLow r ∈ criticalNotifications cfg b →
      b.left = none ∨ ∃ l, b.left = some l ∧ cfg.critical_battery_threshold < l) ∧
    (∀ l r, b.left = some l → b.right = some r →
      l ≤ cfg.critical_battery_threshold → r ≤ cfg.critical_battery_threshold →
      criticalNotifications cfg b = [CriticalNotice.leftLow l]) := by
  obtain ⟨bl, br, ts⟩ := b
  refine ⟨?_, ?_, ?_⟩
  · cases bl <;> cases br <;>
      simp [criticalNotifications, rightCriticalNotice] <;> split_ifs <;> simp
  · intro r hr
    cases bl with
    | none => exact Or.inl rfl
    | some l =>
      by_cases hl : l ≤ cfg.critical_battery_threshold
      · exfalso
        simp [criticalNotifications, hl] at hr
      · exact Or.inr ⟨l, rfl, by omega⟩
  · intro l r hbl hbr hl hr
    cases bl with
    | none => simp at hbl
    | some l2 =>
      have hL : l2 = l := by simpa using hbl
      subst hL
      simp [criticalNotifications, hl]

/-- Witness for `c10_at_most_one_critical`: both halves below the critical
threshold 10 produce only the left-half notification. -/
theorem c10_at_most_one_critical_witness :
    criticalNotifications defaultConfig ⟨some 5, some 7, "t"⟩ =
      [CriticalNotice.leftLow 5] :=
  (c10_at_most_one_critical defaultConfig ⟨some 5, some 7, "t"⟩).2.2 5 7
    (by decide) (by decide) (by decide) (by decide)
